import Mathlib

/- Shallow embedding of src/arbitrage.py (crypto-analysis).

   Conventions used throughout:
   - Python floats holding prices are modelled as rationals; candle
     timestamps (epoch milliseconds) are integers.
   - A Python dict is modelled as an association list in key insertion
     order; the assignment d[k] = v updates the value stored at an
     existing key in place and otherwise appends the pair at the end
     (pyDictInsert below).
   - Exceptions are modelled with Except; PyError lists the exception
     classes relevant to the claims.  pandas DataFrame.__bool__ raises
     ValueError unconditionally ("the truth value of a DataFrame is
     ambiguous"), which matters for get_data_from_exchange.
   - The timeit decorator only prints timings and returns the wrapped
     call's result unchanged, so it is not modelled.
   - The on-disk pickle cache is modelled as a mapping from path strings
     to the pickled Series; open() on a missing path raises OSError,
     modelled by the lookup returning none, which is exactly what the
     `except (OSError, IOError)` clause of get_symbol_data_from_exchange
     catches.  The global mutable state (__exchanges registry, the cache
     directory) is passed and returned explicitly. -/

inductive PyError where
  | ValueError
  | NotSupported
  | AuthenticationError
  | ExchangeError
deriving DecidableEq, Repr

/-- Candle: the source works with ohlcv candles, "each ohlcv candle is a
list of [ timestamp, open, high, low, close, volume ]" (comment at
src/arbitrage.py:82); candle[0] is the timestamp and candle[4] the close. -/
structure Candle where
  timestamp : Int
  open_ : ℚ
  high : ℚ
  low : ℚ
  close : ℚ
  volume : ℚ
deriving DecidableEq, Repr

/-- Series: a pandas Series as built at src/arbitrage.py:108, i.e. values
indexed by the timestamps (converted from epoch ms).  The constructor
`pd.Series(values, index)` used there sets no name, so `name` is `none`
for every series the program builds. -/
structure Series where
  name : Option String
  entries : List (Int × ℚ)
deriving DecidableEq, Repr

/-- Pandas column labels can be strings or (for an unnamed series passed
to `pd.DataFrame`) the default integer label 0. -/
inductive ColLabel where
  | int (n : Int)
  | str (s : String)
deriving DecidableEq, Repr

structure DataFrame where
  cols : List (ColLabel × Series)
deriving DecidableEq, Repr

/-- Exchange: a ccxt connector handle.  `symbols` is the symbol list
available after load_markets; `load_markets_ok` tells whether
load_markets() raises; `fetch_ohlcv` takes the symbol and the timeframe
and either returns candles or raises an exchange-level error. -/
structure Exchange where
  id : String
  symbols : List String
  load_markets_ok : Bool
  fetch_ohlcv : String → String → Except PyError (List Candle)

/-- An element of the list passed to get_exchanges: the source accepts
both identifier strings and already-constructed handles
(src/arbitrage.py:37-40, `if type(exchange_id) == str`). -/
inductive ReqItem where
  | name (s : String)
  | handle (e : Exchange)

/-- The ccxt library surface used by get_exchanges: `ccxt.exchanges` (all
known ids) and `getattr(ccxt, exchange_id)()` (construction, which can
raise - modelled by `construct` returning none). -/
structure Ccxt where
  exchanges : List String
  construct : String → Option Exchange

/-- The env dict of the source: recognized keys cache_dir and timeframe,
read with env.get(key, default) (src/arbitrage.py:98-99). -/
structure Env where
  cache_dir : Option String
  timeframe : Option String

abbrev Registry := List (String × Exchange)
abbrev Cache := List (String × Series)

/-- Python dict assignment d[k] = v on a dict represented as an
association list in insertion order: replace the value at an existing
key, else append the new pair at the end. -/
def pyDictInsert {α β : Type} [BEq α] (d : List (α × β)) (k : α) (v : β) :
    List (α × β) :=
  match d with
  | [] => [(k, v)]
  | p :: rest => if p.1 == k then (k, v) :: rest else p :: pyDictInsert rest k v

/-- One item of the get_exchanges loop: `getattr(ccxt, exchange_id)()`
for strings (none = the construction raised), the item itself for
handles (src/arbitrage.py:37-40). -/
def resolve_request (ccxt : Ccxt) (req : ReqItem) : Option Exchange :=
  match req with
  | .name exchange_id => ccxt.construct exchange_id
  | .handle exchange => some exchange

/-- The loop body of get_exchanges (src/arbitrage.py:35-46).  Note the
source order: `__exchanges[exchange.id] = exchange` runs BEFORE
`exchange.load_markets()`; if load_markets raises, the bare `except:
pass` swallows the error and the entry just inserted stays in the
registry, so the resulting registry does not depend on
`load_markets_ok` (hence the two equal branches below).  If the
construction itself raises, nothing was inserted and the request is
skipped. -/
def load_exchanges (ccxt : Ccxt) (reqs : List ReqItem) (registry : Registry) :
    Registry :=
  match reqs with
  | [] => registry
  | req :: rest =>
    match resolve_request ccxt req with
    | none => load_exchanges ccxt rest registry
    | some exchange =>
      let registry' := pyDictInsert registry exchange.id exchange
      load_exchanges ccxt rest
        (if exchange.load_markets_ok then registry' else registry')

/-- get_exchanges (src/arbitrage.py:31-47).  The whole loading loop is
guarded by `if not __exchanges:` - it runs only when the registry is
empty; `exchanges = exchanges or ccxt.exchanges` falls back to all known
ids when the argument is None or an empty list.  The function returns
`__exchanges.copy()`; the returned mapping and the new registry state are
equal, so a single value models both. -/
def get_exchanges (ccxt : Ccxt) (registry : Registry)
    (exchanges : Option (List ReqItem)) : Registry :=
  if registry.isEmpty then
    let reqs :=
      match exchanges with
      | none => ccxt.exchanges.map ReqItem.name
      | some l => if l.isEmpty then ccxt.exchanges.map ReqItem.name else l
    load_exchanges ccxt reqs registry
  else
    registry

/-- Python string comparison for sorted(): lexicographic on the code
points, i.e. the order of the underlying character list.  (The built-in
String order of Lean is the same order but its decision procedure does
not reduce in the kernel, so the sort below uses the char-list form.) -/
def py_str_le (a b : String) : Prop := a.data ≤ b.data

instance : DecidableRel py_str_le :=
  fun a b => inferInstanceAs (Decidable (a.data ≤ b.data))

instance : IsTotal String py_str_le := ⟨fun a b => le_total a.data b.data⟩

instance : IsTrans String py_str_le := ⟨fun _ _ _ h₁ h₂ => le_trans h₁ h₂⟩

/-- get_arbitrage_symbols (src/arbitrage.py:63-76) for an explicitly
given list of exchanges (every claim supplies one; the None default,
which would iterate over the keys of the registry dict, is not needed by
any claim).  Python's sorted() is a stable comparison sort under the
code-point order; insertionSort under that order models it.
list(set(...)) is modelled by dedup: only the member set of the
intermediate list matters, since the >1-exchange branch sorts it. -/
def get_arbitrage_symbols (exchanges : List Exchange) : List String :=
  let all_symbols := exchanges.flatMap Exchange.symbols
  let unique_symbols := all_symbols.dedup
  if 1 < exchanges.length then
    (unique_symbols.filter (fun symbol => 1 < all_symbols.count symbol)).insertionSort
      py_str_le
  else
    unique_symbols

/-- Python str.replace with a one-character pattern, as in
`.replace('/','-')` at src/arbitrage.py:98: every occurrence of the
character is substituted. -/
def py_replace_char (s : String) (pat repl : Char) : String :=
  String.mk (s.data.map (fun c => if c = pat then repl else c))

/-- Cache path derivation of src/arbitrage.py:98:
`env.get('cache_dir','') + '/' + '\x7b\x7d-\x7b\x7d.pkl'.format(exchange.id, symbol).replace('/','-')`.
The replace applies to the formatted file name only (method call binds
tighter than +), not to the leading cache_dir. -/
def cache_path (env : Env) (exchange_id symbol : String) : String :=
  env.cache_dir.getD "" ++ "/" ++
    py_replace_char (exchange_id ++ "-" ++ symbol ++ ".pkl") '/' '-'

/-- A POSIX path names a location relative to the current directory only
when it does not begin with the root slash. -/
def starts_with_slash (p : String) : Bool := p.data.head? == some '/'

/-- The dict build of src/arbitrage.py:107:
`d = dict([(candle[0], candle[4]) for candle in ohlcv])`, keeping for
each timestamp the close of the last candle carrying it, at the list
position of the first. -/
def ohlcv_to_dict (ohlcv : List Candle) : List (Int × ℚ) :=
  ohlcv.foldl (fun d candle => pyDictInsert d candle.timestamp candle.close) []

/-- get_symbol_data_from_exchange (src/arbitrage.py:95-111).  The try
block attempts to open and unpickle the cache file; only OSError/IOError
from that read are caught (modelled by the lookup miss).  The network
fetch runs inside the except handler, so an error raised by fetch_ohlcv
is NOT caught by that clause and propagates to the caller.  On success
the freshly built series is pickled at the cache path before being
returned.  The trailing Nat is call-count instrumentation for the fetch
capability: 1 when fetch_ohlcv was invoked, 0 on a cache hit. -/
def get_symbol_data_from_exchange (symbol : String) (exchange : Exchange)
    (env : Env) (cache : Cache) : Except PyError (Series × Cache × Nat) :=
  let path := cache_path env exchange.id symbol
  let timeframe := env.timeframe.getD "1d"
  match List.lookup path cache with
  | some df => .ok (df, cache, 0)
  | none =>
    match exchange.fetch_ohlcv symbol timeframe with
    | .error e => .error e
    | .ok ohlcv =>
      let df : Series := { name := none, entries := ohlcv_to_dict ohlcv }
      .ok (df, pyDictInsert cache path df, 1)

/-- pd.DataFrame(series): a one-column table; the column label is the
series name when present and the default integer label 0 otherwise. -/
def series_to_dataframe (s : Series) : DataFrame :=
  { cols := [(match s.name with
              | some n => ColLabel.str n
              | none => ColLabel.int 0, s)] }

/-- The loop of get_data_from_exchange (src/arbitrage.py:87-92):
`df = df and df.join(df_symbol, how='outer') or pd.DataFrame(df_symbol)`.
With df = None the `and` short-circuits and the `or` produces
pd.DataFrame(df_symbol).  With df an actual DataFrame, evaluating
`df and ...` calls DataFrame.__bool__, which raises ValueError before
the join is ever evaluated - so the join itself is unreachable and needs
no model. -/
def data_from_exchange_loop (symbols : List String) (exchange : Exchange)
    (env : Env) (df : Option DataFrame) (cache : Cache) :
    Except PyError (Option DataFrame × Cache) :=
  match symbols with
  | [] => .ok (df, cache)
  | symbol :: rest =>
    match get_symbol_data_from_exchange symbol exchange env cache with
    | .error e => .error e
    | .ok (df_symbol, cache', _) =>
      match df with
      | none =>
        data_from_exchange_loop rest exchange env
          (some (series_to_dataframe df_symbol)) cache'
      | some _ => .error .ValueError

/-- get_data_from_exchange (src/arbitrage.py:87-92): fold the per-symbol
series into df, starting from df = None. -/
def get_data_from_exchange (symbols : List String) (exchange : Exchange)
    (env : Env) (cache : Cache) : Except PyError (Option DataFrame × Cache) :=
  data_from_exchange_loop symbols exchange env none cache

/-- The dict comprehension of get_price_data (src/arbitrage.py:84):
`dict([(exchange.id, get_data_from_exchange(symbols, exchange, env))
for exchange in exchanges.values()])`, threading the cache directory
state left to right and propagating any exception. -/
def price_data_loop (symbols : List String) (env : Env)
    (exchanges : List (String × Exchange)) (cache : Cache) :
    Except PyError (List (String × Option DataFrame) × Cache) :=
  match exchanges with
  | [] => .ok ([], cache)
  | (_, exchange) :: rest =>
    match get_data_from_exchange symbols exchange env cache with
    | .error e => .error e
    | .ok (df, cache') =>
      match price_data_loop symbols env rest cache' with
      | .error e => .error e
      | .ok (tables, cache'') => .ok ((exchange.id, df) :: tables, cache'')

/-- get_price_data (src/arbitrage.py:79-84): resolve exchanges through
the registry, then build the per-exchange tables. -/
def get_price_data (ccxt : Ccxt) (symbols : List String)
    (exchanges : Option (List ReqItem)) (env : Env) (registry : Registry)
    (cache : Cache) :
    Except PyError (List (String × Option DataFrame) × Registry × Cache) :=
  let reg := get_exchanges ccxt registry exchanges
  match price_data_loop symbols env reg cache with
  | .error e => .error e
  | .ok (tables, cache') => .ok (tables, reg, cache')

/-- Civil date (year, month, day) of a day number counted from
1970-01-01, by the standard era decomposition of the proleptic Gregorian
calendar. -/
def civil_from_days (z0 : Int) : Int × Int × Int :=
  let z := z0 + 719468
  let era : Int := (if 0 ≤ z then z else z - 146096) / 146097
  let doe : Int := z - era * 146097
  let yoe : Int := (doe - doe / 1460 + doe / 36524 - doe / 146096) / 365
  let y : Int := yoe + era * 400
  let doy : Int := doe - (365 * yoe + yoe / 4 - yoe / 100)
  let mp : Int := (5 * doy + 2) / 153
  let d : Int := doy - (153 * mp + 2) / 5 + 1
  let m : Int := mp + (if mp < 10 then 3 else (-9 : Int))
  (y + (if m ≤ 2 then 1 else 0), m, d)

/-- Calendar date of an epoch-millisecond timestamp, as rendered by
pd.to_datetime(ts, unit='ms') for whole days. -/
def ms_to_date (ms : Int) : Int × Int × Int := civil_from_days (ms / 86400000)

/- Concrete fixtures used by witnesses and counterexamples.  candle1 and
candle2 are the two candles of the end-to-end scenario in the spec:
[0,100,110,90,105,10] and [86400000,105,115,95,110,12]. -/

def candle1 : Candle :=
  { timestamp := 0, open_ := 100, high := 110, low := 90, close := 105,
    volume := 10 }

def candle2 : Candle :=
  { timestamp := 86400000, open_ := 105, high := 115, low := 95, close := 110,
    volume := 12 }

/-- Mock exchange A of the spec scenarios: symbols BTC/USDT and ETH/USDT,
ohlcv fetch answering the two scenario candles for every symbol. -/
def exchA : Exchange :=
  { id := "A", symbols := ["BTC/USDT", "ETH/USDT"], load_markets_ok := true,
    fetch_ohlcv := fun _ _ => .ok [candle1, candle2] }

/-- Mock exchange B of the spec scenarios: symbols BTC/USDT and XRP/USDT. -/
def exchB : Exchange :=
  { id := "B", symbols := ["BTC/USDT", "XRP/USDT"], load_markets_ok := true,
    fetch_ohlcv := fun _ _ => .ok [candle1, candle2] }

/-- An exchange whose construction succeeds but whose load_markets()
raises. -/
def exchLoadFail : Exchange :=
  { id := "badload", symbols := [], load_markets_ok := false,
    fetch_ohlcv := fun _ _ => .ok [] }

/-- An exchange whose fetch_ohlcv raises a ccxt NotSupported error. -/
def exchFetchFail : Exchange :=
  { id := "kraken", symbols := ["BTC/USDT"], load_markets_ok := true,
    fetch_ohlcv := fun _ _ => .error .NotSupported }

/-- An exchange whose fetch returns three candles, the first and third
sharing timestamp 0 with closes 105 and 99. -/
def exchDup : Exchange :=
  { id := "dup", symbols := ["BTC/USDT"], load_markets_ok := true,
    fetch_ohlcv := fun _ _ => .ok [candle1, candle2, { candle1 with close := 99 }] }

/-- A ccxt model knowing the mock exchanges above; any other identifier
fails to construct. -/
def ccxt_test : Ccxt :=
  { exchanges := ["A", "B"],
    construct := fun s =>
      if s = "A" then some exchA
      else if s = "B" then some exchB
      else if s = "badload" then some exchLoadFail
      else none }

def env_tmp : Env := { cache_dir := some "/tmp", timeframe := none }

def env_default : Env := { cache_dir := none, timeframe := none }

/- Association-list lemmas for the Python dict model. -/

theorem lookup_pyDictInsert_self {α β : Type} [BEq α] [LawfulBEq α]
    (d : List (α × β)) (k : α) (v : β) :
    List.lookup k (pyDictInsert d k v) = some v := by
  induction d with
  | nil => simp [pyDictInsert, List.lookup]
  | cons p rest ih =>
    obtain ⟨pk, pv⟩ := p
    by_cases h : pk = k
    · subst h
      simp [pyDictInsert, List.lookup]
    · have hb : (pk == k) = false := by simpa using h
      have hb' : (k == pk) = false := by simpa using Ne.symm h
      simp [pyDictInsert, hb, hb', List.lookup, ih]

theorem lookup_pyDictInsert_ne {α β : Type} [BEq α] [LawfulBEq α]
    (d : List (α × β)) (k k' : α) (v : β) (h : k' ≠ k) :
    List.lookup k' (pyDictInsert d k v) = List.lookup k' d := by
  have hb0 : (k' == k) = false := by simpa using h
  induction d with
  | nil => simp [pyDictInsert, List.lookup, hb0]
  | cons p rest ih =>
    obtain ⟨pk, pv⟩ := p
    by_cases hpk : pk = k
    · subst hpk
      have hb' : (k' == pk) = false := by simpa using h
      simp [pyDictInsert, List.lookup, hb']
    · have hb : (pk == k) = false := by simpa using hpk
      simp [pyDictInsert, hb, List.lookup, ih]

theorem mem_keys_pyDictInsert {α β : Type} [BEq α] [LawfulBEq α]
    (d : List (α × β)) (k : α) (v : β) (k' : α) :
    k' ∈ (pyDictInsert d k v).map Prod.fst ↔ k' ∈ d.map Prod.fst ∨ k' = k := by
  induction d with
  | nil => simp [pyDictInsert]
  | cons p rest ih =>
    obtain ⟨pk, pv⟩ := p
    by_cases h : pk = k
    · subst h
      simp [pyDictInsert]
      tauto
    · have hb : (pk == k) = false := by simpa using h
      simp [pyDictInsert, hb, ih]
      tauto

theorem keys_nodup_pyDictInsert {α β : Type} [BEq α] [LawfulBEq α]
    (d : List (α × β)) (k : α) (v : β) (h : (d.map Prod.fst).Nodup) :
    ((pyDictInsert d k v).map Prod.fst).Nodup := by
  induction d with
  | nil => simp [pyDictInsert]
  | cons p rest ih =>
    obtain ⟨pk, pv⟩ := p
    simp only [List.map_cons, List.nodup_cons] at h
    by_cases hpk : pk = k
    · subst hpk
      simpa [pyDictInsert] using h
    · have hb : (pk == k) = false := by simpa using hpk
      simp only [pyDictInsert, hb, Bool.false_eq_true, if_false, List.map_cons,
        List.nodup_cons]
      constructor
      · intro hmem
        rcases (mem_keys_pyDictInsert rest k v pk).mp hmem with h1 | h1
        · exact h.1 h1
        · exact hpk h1
      · exact ih h.2

/- Registry lemmas. -/

theorem mem_keys_load_exchanges (ccxt : Ccxt) (reqs : List ReqItem)
    (reg : Registry) (k : String) :
    k ∈ (load_exchanges ccxt reqs reg).map Prod.fst ↔
      k ∈ reg.map Prod.fst ∨
        ∃ r ∈ reqs, ∃ ex, resolve_request ccxt r = some ex ∧ ex.id = k := by
  induction reqs generalizing reg with
  | nil => simp [load_exchanges]
  | cons req rest ih =>
    cases hres : resolve_request ccxt req with
    | none =>
      simp only [load_exchanges, hres, ih, List.mem_cons]
      constructor
      · rintro (h1 | h1)
        · exact Or.inl h1
        · obtain ⟨r, hr, ex, hex, hid⟩ := h1
          exact Or.inr ⟨r, Or.inr hr, ex, hex, hid⟩
      · rintro (h1 | ⟨r, (rfl | hr), ex, hex, hid⟩)
        · exact Or.inl h1
        · rw [hres] at hex
          exact absurd hex (by simp)
        · exact Or.inr ⟨r, hr, ex, hex, hid⟩
    | some ex =>
      simp only [load_exchanges, hres, ite_self, ih, mem_keys_pyDictInsert,
        List.mem_cons]
      constructor
      · rintro ((h1 | h1) | h1)
        · exact Or.inl h1
        · exact Or.inr ⟨req, Or.inl rfl, ex, hres, h1.symm⟩
        · obtain ⟨r, hr, ex', hex, hid⟩ := h1
          exact Or.inr ⟨r, Or.inr hr, ex', hex, hid⟩
      · rintro (h1 | ⟨r, (rfl | hr), ex', hex, hid⟩)
        · exact Or.inl (Or.inl h1)
        · rw [hres] at hex
          cases hex
          exact Or.inl (Or.inr hid.symm)
        · exact Or.inr ⟨r, hr, ex', hex, hid⟩

theorem get_exchanges_of_ne_nil (ccxt : Ccxt) (reg : Registry)
    (o : Option (List ReqItem)) (h : reg ≠ []) :
    get_exchanges ccxt reg o = reg := by
  have hb : reg.isEmpty = false := by
    cases reg
    · exact absurd rfl h
    · rfl
  simp [get_exchanges, hb]

theorem get_exchanges_idem (ccxt : Ccxt) (reg : Registry)
    (o : Option (List ReqItem)) :
    get_exchanges ccxt (get_exchanges ccxt reg o) o = get_exchanges ccxt reg o := by
  by_cases h1 : get_exchanges ccxt reg o = []
  · by_cases h0 : reg = []
    · subst h0
      rw [h1]
      exact h1
    · rw [get_exchanges_of_ne_nil ccxt reg o h0] at h1
      exact absurd h1 h0
  · exact get_exchanges_of_ne_nil ccxt _ o h1

theorem get_exchanges_on_empty (ccxt : Ccxt) (reqs : List ReqItem)
    (h : reqs ≠ []) :
    get_exchanges ccxt [] (some reqs) = load_exchanges ccxt reqs [] := by
  have hb : reqs.isEmpty = false := by
    cases reqs
    · exact absurd rfl h
    · rfl
  simp [get_exchanges, hb]

/-- Claim C5 counterexample: an exchange whose construction succeeds but
whose load_markets() raises is NOT silently skipped - it was inserted
into the registry before load_markets ran and stays there, so it appears
in the returned mapping as a partial record (markets never loaded). -/
theorem get_exchanges_keeps_load_failure :
    (get_exchanges ccxt_test [] (some [ReqItem.name "badload"])).map Prod.fst
        = ["badload"] ∧
      exchLoadFail.load_markets_ok = false := by
  constructor
  · decide
  · rfl

/-- Claim C5 (amended): during a call that starts from an empty registry,
a request whose construction raises is silently skipped (absent from the
result), while a request that constructs successfully ends up in the
returned mapping keyed by its id whether or not its load_markets raises;
no error reaches the caller in either case (the function is total and
returns the registry).  Membership in the result depends only on
construction succeeding, never on load_markets_ok. -/
theorem get_exchanges_error_policy (ccxt : Ccxt) (reqs : List ReqItem)
    (h : reqs ≠ []) (k : String) :
    k ∈ (get_exchanges ccxt [] (some reqs)).map Prod.fst ↔
      ∃ r ∈ reqs, ∃ ex, resolve_request ccxt r = some ex ∧ ex.id = k := by
  rw [get_exchanges_on_empty ccxt reqs h, mem_keys_load_exchanges]
  simp

/-- Witness for get_exchanges_error_policy at a concrete input: the
request list holds one id that fails to construct and one whose
load_markets fails; the theorem characterizes the key "badload" as
present. -/
theorem get_exchanges_error_policy_witness :
    ([ReqItem.name "nosuch", ReqItem.name "badload"] : List ReqItem) ≠ [] ∧
      ("badload" ∈ (get_exchanges ccxt_test []
            (some [ReqItem.name "nosuch", ReqItem.name "badload"])).map Prod.fst ↔
        ∃ r ∈ [ReqItem.name "nosuch", ReqItem.name "badload"], ∃ ex,
          resolve_request ccxt_test r = some ex ∧ ex.id = "badload") :=
  ⟨List.cons_ne_nil _ _,
    get_exchanges_error_policy ccxt_test _ (List.cons_ne_nil _ _) "badload"⟩

/-- Claim C6 counterexample: after a first call has populated the
registry with exchange A, a second call naming exchange B - which is
constructible and absent from the registry - does NOT construct or add
it; the request list is ignored and the old registry is returned. -/
theorem get_exchanges_ignores_new_names :
    (get_exchanges ccxt_test
          (get_exchanges ccxt_test [] (some [ReqItem.name "A"]))
          (some [ReqItem.name "B"])).map Prod.fst = ["A"] ∧
      "B" ∉ (get_exchanges ccxt_test
          (get_exchanges ccxt_test [] (some [ReqItem.name "A"]))
          (some [ReqItem.name "B"])).map Prod.fst ∧
      (ccxt_test.construct "B").isSome = true := by
  refine ⟨by decide, by decide, by decide⟩

/-- Claim C6 (amended): the construct-and-add behaviour happens only when
the registry is empty at the start of the call: then every requested
exchange whose construction succeeds is added keyed by its id.  When the
registry is already non-empty (e.g. on any call after a first successful
call), the requested names are ignored entirely and the existing
registry is returned unchanged. -/
theorem get_exchanges_loads_only_into_empty_registry (ccxt : Ccxt)
    (reqs : List ReqItem) (h : reqs ≠ []) :
    (∀ r ∈ reqs, ∀ ex, resolve_request ccxt r = some ex →
        ex.id ∈ (get_exchanges ccxt [] (some reqs)).map Prod.fst) ∧
      ∀ reg : Registry, reg ≠ [] → get_exchanges ccxt reg (some reqs) = reg := by
  constructor
  · intro r hr ex hex
    rw [get_exchanges_on_empty ccxt reqs h, mem_keys_load_exchanges]
    exact Or.inr ⟨r, hr, ex, hex, rfl⟩
  · intro reg hreg
    exact get_exchanges_of_ne_nil ccxt reg _ hreg

/-- Witness for get_exchanges_loads_only_into_empty_registry at a
concrete input: requesting A on an empty registry puts "A" among the
returned keys, and a call on the non-empty result returns it unchanged. -/
theorem get_exchanges_loads_only_into_empty_registry_witness :
    ([ReqItem.name "A"] : List ReqItem) ≠ [] ∧
      (∀ r ∈ ([ReqItem.name "A"] : List ReqItem), ∀ ex,
        resolve_request ccxt_test r = some ex →
          ex.id ∈ (get_exchanges ccxt_test []
            (some [ReqItem.name "A"])).map Prod.fst) :=
  ⟨List.cons_ne_nil _ _,
    (get_exchanges_loads_only_into_empty_registry ccxt_test [ReqItem.name "A"]
      (List.cons_ne_nil _ _)).1⟩

/-- Claim C8: calling get_exchanges twice with the same arguments, the
second call's result contains every key of the first call's result (the
registry grows monotonically and nothing is evicted; in fact the second
result is equal to the first). -/
theorem get_exchanges_registry_monotone (ccxt : Ccxt) (reg : Registry)
    (reqs : Option (List ReqItem)) (k : String)
    (h : k ∈ (get_exchanges ccxt reg reqs).map Prod.fst) :
    k ∈ (get_exchanges ccxt (get_exchanges ccxt reg reqs) reqs).map Prod.fst := by
  rw [get_exchanges_idem]
  exact h

/-- Witness for get_exchanges_registry_monotone at a concrete input. -/
theorem get_exchanges_registry_monotone_witness :
    "A" ∈ (get_exchanges ccxt_test [] (some [ReqItem.name "A"])).map Prod.fst ∧
      "A" ∈ (get_exchanges ccxt_test
          (get_exchanges ccxt_test [] (some [ReqItem.name "A"]))
          (some [ReqItem.name "A"])).map Prod.fst :=
  ⟨by decide,
    get_exchanges_registry_monotone ccxt_test [] (some [ReqItem.name "A"]) "A"
      (by decide)⟩

/-- Claim C4 counterexample: with an empty cache, an exchange whose
fetch_ohlcv raises NotSupported makes get_symbol_data_from_exchange
raise that very error instead of returning an empty/absent series: the
`except (OSError, IOError)` clause guards only the cache read, and the
fetch runs inside that handler, where nothing catches it. -/
theorem get_symbol_data_propagates_fetch_error_at_input :
    get_symbol_data_from_exchange "BTC/USDT" exchFetchFail env_tmp []
      = .error PyError.NotSupported := by
  rfl

/-- Claim C4 (amended): when the cache has no entry at the derived path
and the connector's OHLCV fetch raises an exchange-level error, that
error propagates unchanged out of get_symbol_data_from_exchange; only
OSError/IOError from the cache open/unpickle are caught (as a cache
miss), so no empty series is substituted for the failed symbol. -/
theorem get_symbol_data_propagates_fetch_error (symbol : String)
    (exchange : Exchange) (env : Env) (cache : Cache) (e : PyError)
    (hmiss : List.lookup (cache_path env exchange.id symbol) cache = none)
    (herr : exchange.fetch_ohlcv symbol (env.timeframe.getD "1d") = .error e) :
    get_symbol_data_from_exchange symbol exchange env cache = .error e := by
  simp [get_symbol_data_from_exchange, hmiss, herr]

/-- Witness for get_symbol_data_propagates_fetch_error at a concrete
input. -/
theorem get_symbol_data_propagates_fetch_error_witness :
    List.lookup (cache_path env_tmp exchFetchFail.id "BTC/USDT") ([] : Cache)
        = none ∧
      exchFetchFail.fetch_ohlcv "BTC/USDT" (env_tmp.timeframe.getD "1d")
        = .error PyError.NotSupported ∧
      get_symbol_data_from_exchange "BTC/USDT" exchFetchFail env_tmp []
        = .error PyError.NotSupported :=
  ⟨rfl, rfl,
    get_symbol_data_propagates_fetch_error "BTC/USDT" exchFetchFail env_tmp []
      PyError.NotSupported rfl rfl⟩

/-- Claim C7: starting from an empty cache directory, the first fetch for
a (exchange, symbol) pair invokes the connector's OHLCV fetch exactly
once, persists the freshly built series at the derived cache path, and a
second call with the resulting cache directory returns the identical
series from that path with zero further fetch invocations. -/
theorem get_symbol_data_cache_roundtrip (symbol : String) (exchange : Exchange)
    (env : Env) (candles : List Candle)
    (hfetch : exchange.fetch_ohlcv symbol (env.timeframe.getD "1d")
      = .ok candles) :
    ∃ df cache₁,
      get_symbol_data_from_exchange symbol exchange env [] = .ok (df, cache₁, 1) ∧
        List.lookup (cache_path env exchange.id symbol) cache₁ = some df ∧
        get_symbol_data_from_exchange symbol exchange env cache₁
          = .ok (df, cache₁, 0) := by
  refine ⟨{ name := none, entries := ohlcv_to_dict candles },
    [(cache_path env exchange.id symbol,
      { name := none, entries := ohlcv_to_dict candles })], ?_, ?_, ?_⟩
  · simp [get_symbol_data_from_exchange, hfetch, pyDictInsert, List.lookup]
  · simp [List.lookup]
  · simp [get_symbol_data_from_exchange, List.lookup]

/-- Witness for get_symbol_data_cache_roundtrip at a concrete input:
exchange A answering the two scenario candles. -/
theorem get_symbol_data_cache_roundtrip_witness :
    exchA.fetch_ohlcv "BTC/USDT" (env_tmp.timeframe.getD "1d")
        = .ok [candle1, candle2] ∧
      ∃ df cache₁,
        get_symbol_data_from_exchange "BTC/USDT" exchA env_tmp []
            = .ok (df, cache₁, 1) ∧
          List.lookup (cache_path env_tmp exchA.id "BTC/USDT") cache₁ = some df ∧
          get_symbol_data_from_exchange "BTC/USDT" exchA env_tmp cache₁
            = .ok (df, cache₁, 0) :=
  ⟨rfl,
    get_symbol_data_cache_roundtrip "BTC/USDT" exchA env_tmp [candle1, candle2]
      rfl⟩

/-- Claim C9 counterexample: with no cache_dir option the derived path
for (binance, BTC/USDT) is "/binance-BTC-USDT.pkl", which begins with
the root slash - an absolute path in the filesystem root, not a
current-directory-relative path. -/
theorem cache_path_default_not_relative :
    cache_path env_default "binance" "BTC/USDT" = "/binance-BTC-USDT.pkl" ∧
      starts_with_slash "/binance-BTC-USDT.pkl" = true := by
  exact ⟨rfl, rfl⟩

/-- Claim C9 (amended): the cache file path is
cache_dir + "/" + exchange_id + "-" + symbol-with-slash-replaced-by-dash
+ ".pkl" (shown at the representative pair binance, BTC/USDT for every
cache_dir value), and when the cache_dir option is absent it defaults to
the empty string - which makes the derived path begin with the root
slash, i.e. an absolute path under the filesystem root rather than a
current-directory-relative one. -/
theorem cache_path_formula :
    (∀ cd : String, ∀ tf : Option String,
        cache_path { cache_dir := some cd, timeframe := tf } "binance" "BTC/USDT"
          = cd ++ "/" ++ "binance-BTC-USDT.pkl") ∧
      (∀ tf : Option String,
        cache_path { cache_dir := none, timeframe := tf } "binance" "BTC/USDT"
          = "/binance-BTC-USDT.pkl") ∧
      starts_with_slash "/binance-BTC-USDT.pkl" = true := by
  exact ⟨fun cd tf => rfl, fun tf => rfl, rfl⟩

/- Lemmas about the dict build of src/arbitrage.py:107. -/

theorem lookup_ohlcv_foldl (candles : List Candle) (d : List (Int × ℚ))
    (t : Int) :
    List.lookup t
        (candles.foldl
          (fun acc candle => pyDictInsert acc candle.timestamp candle.close) d) =
      match (candles.filter (fun c => c.timestamp == t)).getLast? with
      | some c => some c.close
      | none => List.lookup t d := by
  induction candles generalizing d with
  | nil => simp
  | cons c rest ih =>
    rw [List.foldl_cons, ih, List.filter_cons]
    by_cases hct : c.timestamp = t
    · have hb : (c.timestamp == t) = true := by simpa using hct
      rw [if_pos hb]
      cases hlast : (rest.filter (fun c => c.timestamp == t)).getLast? with
      | some c' =>
        have : (c :: rest.filter (fun c => c.timestamp == t)).getLast? = some c' :=
          List.mem_getLast?_cons hlast
        rw [this]
      | none =>
        have hnil : rest.filter (fun c => c.timestamp == t) = [] := by
          cases hfe : rest.filter (fun c => c.timestamp == t) with
          | nil => rfl
          | cons x xs =>
            rw [hfe] at hlast
            simp at hlast
        rw [hnil]
        subst hct
        simp [lookup_pyDictInsert_self]
    · have hb : (c.timestamp == t) = false := by simpa using hct
      rw [if_neg (by simp [hb])]
      cases hlast : (rest.filter (fun c => c.timestamp == t)).getLast? with
      | some c' => rfl
      | none =>
        rw [lookup_pyDictInsert_ne d c.timestamp t c.close (Ne.symm hct)]

theorem mem_keys_ohlcv_foldl (candles : List Candle) (d : List (Int × ℚ))
    (t : Int) :
    t ∈ (candles.foldl
          (fun acc candle => pyDictInsert acc candle.timestamp candle.close)
          d).map Prod.fst ↔
      t ∈ d.map Prod.fst ∨ ∃ c ∈ candles, c.timestamp = t := by
  induction candles generalizing d with
  | nil => simp
  | cons c rest ih =>
    rw [List.foldl_cons, ih]
    constructor
    · rintro (h1 | h1)
      · rcases (mem_keys_pyDictInsert d c.timestamp c.close t).mp h1 with h2 | h2
        · exact Or.inl h2
        · exact Or.inr ⟨c, List.mem_cons_self c rest, h2.symm⟩
      · obtain ⟨c', hc', ht⟩ := h1
        exact Or.inr ⟨c', List.mem_cons_of_mem c hc', ht⟩
    · rintro (h1 | ⟨c', hc', ht⟩)
      · exact Or.inl ((mem_keys_pyDictInsert d c.timestamp c.close t).mpr
          (Or.inl h1))
      · rcases List.mem_cons.mp hc' with rfl | hc''
        · exact Or.inl ((mem_keys_pyDictInsert d c'.timestamp c'.close t).mpr
            (Or.inr ht.symm))
        · exact Or.inr ⟨c', hc'', ht⟩

theorem keys_nodup_ohlcv_foldl (candles : List Candle) (d : List (Int × ℚ))
    (h : (d.map Prod.fst).Nodup) :
    ((candles.foldl
        (fun acc candle => pyDictInsert acc candle.timestamp candle.close)
        d).map Prod.fst).Nodup := by
  induction candles generalizing d with
  | nil => exact h
  | cons c rest ih =>
    exact ih _ (keys_nodup_pyDictInsert d c.timestamp c.close h)

theorem countP_key_eq_one {d : List (Int × ℚ)} {t : Int}
    (hnd : (d.map Prod.fst).Nodup) (hmem : t ∈ d.map Prod.fst) :
    d.countP (fun p => p.1 == t) = 1 := by
  have h1 : List.count t (d.map Prod.fst) = 1 := List.count_eq_one_of_mem hnd hmem
  rw [List.count_eq_countP, List.countP_map] at h1
  exact h1

/-- Claim C10: when the fetched candle list holds several candles sharing
one timestamp, the series built by get_symbol_data_from_exchange keeps
exactly one entry for that timestamp, and its value is the close of the
LAST such candle in candle order - the dict comprehension of
src/arbitrage.py:107 lets later candles overwrite earlier ones key by
key. -/
theorem get_symbol_data_last_duplicate_wins (symbol : String)
    (exchange : Exchange) (env : Env) (candles : List Candle) (t : Int)
    (hfetch : exchange.fetch_ohlcv symbol (env.timeframe.getD "1d")
      = .ok candles)
    (hdup : 2 ≤ (candles.filter (fun c => c.timestamp == t)).length) :
    ∃ df cache₁,
      get_symbol_data_from_exchange symbol exchange env [] = .ok (df, cache₁, 1) ∧
        df.entries.countP (fun p => p.1 == t) = 1 ∧
        List.lookup t df.entries =
          ((candles.filter (fun c => c.timestamp == t)).getLast?).map
            Candle.close := by
  refine ⟨{ name := none, entries := ohlcv_to_dict candles },
    [(cache_path env exchange.id symbol,
      { name := none, entries := ohlcv_to_dict candles })], ?_, ?_, ?_⟩
  · simp [get_symbol_data_from_exchange, hfetch, pyDictInsert, List.lookup]
  · have hfil : candles.filter (fun c => c.timestamp == t) ≠ [] := by
      intro hnil
      rw [hnil] at hdup
      simp at hdup
    obtain ⟨c, hc⟩ := List.exists_mem_of_ne_nil _ hfil
    have hct : c.timestamp = t := by simpa using (List.mem_filter.mp hc).2
    have hmem : t ∈ (ohlcv_to_dict candles).map Prod.fst :=
      (mem_keys_ohlcv_foldl candles [] t).mpr
        (Or.inr ⟨c, (List.mem_filter.mp hc).1, hct⟩)
    exact countP_key_eq_one (keys_nodup_ohlcv_foldl candles [] (by simp)) hmem
  · show List.lookup t (ohlcv_to_dict candles) = _
    rw [ohlcv_to_dict, lookup_ohlcv_foldl candles [] t]
    cases hlast : (candles.filter (fun c => c.timestamp == t)).getLast? with
    | some c' => simp
    | none => simp

/-- Witness for get_symbol_data_last_duplicate_wins at a concrete input:
the dup exchange returns candles at timestamps 0, 86400000, 0 with
closes 105, 110, 99; the series keeps one entry at timestamp 0 holding
99, the close of the last duplicate. -/
theorem get_symbol_data_last_duplicate_wins_witness :
    exchDup.fetch_ohlcv "BTC/USDT" (env_tmp.timeframe.getD "1d")
        = .ok [candle1, candle2, { candle1 with close := 99 }] ∧
      2 ≤ ([candle1, candle2, { candle1 with close := 99 }].filter
        (fun c => c.timestamp == 0)).length ∧
      ∃ df cache₁,
        get_symbol_data_from_exchange "BTC/USDT" exchDup env_tmp []
            = .ok (df, cache₁, 1) ∧
          df.entries.countP (fun p => p.1 == 0) = 1 ∧
          List.lookup 0 df.entries =
            (([candle1, candle2, { candle1 with close := 99 }].filter
              (fun c => c.timestamp == 0)).getLast?).map Candle.close :=
  ⟨rfl, by decide,
    get_symbol_data_last_duplicate_wins "BTC/USDT" exchDup env_tmp
      [candle1, candle2, { candle1 with close := 99 }] 0 rfl (by decide)⟩

/-- Claim C2, code evaluated at the failing input: requesting TWO symbols
from one exchange raises ValueError instead of building a joined table.
On the second loop iteration df holds a DataFrame, and evaluating
`df and df.join(df_symbol, how='outer')` calls DataFrame.__bool__, which
raises ValueError ("the truth value of a DataFrame is ambiguous") before
the outer join is ever evaluated. -/
theorem get_data_from_exchange_raises_on_two_symbols :
    get_data_from_exchange ["BTC/USDT", "ETH/USDT"] exchA env_tmp []
      = .error PyError.ValueError := by
  rfl

/-- Claim C3 counterexample: in the end-to-end scenario the returned
table for exchange A has its single column labelled by the INTEGER 0,
not by the symbol "BTC/USDT": the series built at src/arbitrage.py:108
is constructed without a name, so pd.DataFrame gives it the default
integer column label.  (Rows and close values are as the claim says.) -/
theorem get_price_data_column_label_not_symbol :
    (get_price_data ccxt_test ["BTC/USDT"] (some [ReqItem.handle exchA]) env_tmp
          [] []).map
        (fun out => out.1.map (fun p => (p.1, p.2.map DataFrame.cols)))
      = .ok [("A",
          some [(ColLabel.int 0,
            { name := none, entries := [(0, 105), (86400000, 110)] })])] ∧
      ColLabel.int 0 ≠ ColLabel.str "BTC/USDT" := by
  exact ⟨rfl, by decide⟩

/-- Claim C3 (amended): for every cache directory, the scenario
get_price_data(("BTC/USDT"), (A), cache_dir=tmpdir) with A's mock fetch
returning the two scenario candles yields one table for exchange A with
a single UNNAMED column - labelled by the default integer 0, since the
source builds the series without a name - holding exactly two rows at
timestamps 0 and 86400000 ms (the calendar dates 1970-01-01 and
1970-01-02) with close values 105 and 110. -/
theorem get_price_data_scenario (tmpdir : String) :
    (get_price_data ccxt_test ["BTC/USDT"] (some [ReqItem.handle exchA])
          { cache_dir := some tmpdir, timeframe := none } [] []).map
        (fun out => out.1.map (fun p => (p.1, p.2.map DataFrame.cols)))
      = .ok [("A",
          some [(ColLabel.int 0,
            { name := none, entries := [(0, 105), (86400000, 110)] })])] ∧
      ms_to_date 0 = (1970, 1, 1) ∧ ms_to_date 86400000 = (1970, 1, 2) := by
  exact ⟨rfl, by decide, by decide⟩

/- Lemmas for the symbol intersector. -/

theorem py_str_le_iff (a b : String) : py_str_le a b ↔ a ≤ b :=
  Iff.symm String.le_iff_toList_le

theorem count_symbols_eq_countP (exchanges : List Exchange) (s : String)
    (h : ∀ e ∈ exchanges, e.symbols.Nodup) :
    (exchanges.flatMap Exchange.symbols).count s =
      exchanges.countP (fun e => decide (s ∈ e.symbols)) := by
  induction exchanges with
  | nil => simp
  | cons e rest ih =>
    have hnd : e.symbols.Nodup := h e (List.mem_cons_self e rest)
    have hrest : ∀ e' ∈ rest, e'.symbols.Nodup :=
      fun e' he' => h e' (List.mem_cons_of_mem e he')
    rw [List.flatMap_cons, List.count_append, List.countP_cons, ih hrest]
    by_cases hs : s ∈ e.symbols
    · rw [List.count_eq_one_of_mem hnd hs]
      simp [hs, Nat.add_comm]
    · rw [List.count_eq_zero_of_not_mem hs]
      simp [hs]

/-- Claim C1: over exchanges whose loaded symbol lists are duplicate-free
(as ccxt market metadata is - symbols are dict keys), two or more
exchanges make get_arbitrage_symbols return a duplicate-free list,
sorted ascending in lexicographic string order, whose members are
exactly the symbols present on at least two of the given exchanges;
and on the spec's concrete scenario (A with BTC/USDT and ETH/USDT, B
with BTC/USDT and XRP/USDT) the result is exactly ["BTC/USDT"], the
symbols on one exchange only being absent. -/
theorem get_arbitrage_symbols_spec :
    (∀ exchanges : List Exchange, 2 ≤ exchanges.length →
      (∀ e ∈ exchanges, e.symbols.Nodup) →
      (get_arbitrage_symbols exchanges).Sorted (· ≤ ·) ∧
        (get_arbitrage_symbols exchanges).Nodup ∧
        ∀ s : String, s ∈ get_arbitrage_symbols exchanges ↔
          2 ≤ exchanges.countP (fun e => decide (s ∈ e.symbols))) ∧
      get_arbitrage_symbols [exchA, exchB] = ["BTC/USDT"] := by
  constructor
  · intro exchanges hlen hnd
    have hgt : 1 < exchanges.length := hlen
    have hun : get_arbitrage_symbols exchanges
        = ((exchanges.flatMap Exchange.symbols).dedup.filter
            (fun symbol =>
              1 < (exchanges.flatMap Exchange.symbols).count symbol)).insertionSort
          py_str_le := by
      simp only [get_arbitrage_symbols]
      rw [if_pos hgt]
    refine ⟨?_, ?_, ?_⟩
    · rw [hun]
      exact (List.sorted_insertionSort py_str_le _).imp
        (fun h => (py_str_le_iff _ _).mp h)
    · rw [hun]
      exact ((List.perm_insertionSort py_str_le _).nodup_iff).mpr
        ((List.nodup_dedup _).filter _)
    · intro s
      rw [hun]
      rw [(List.perm_insertionSort py_str_le _).mem_iff, List.mem_filter,
        List.mem_dedup]
      constructor
      · rintro ⟨hmem, hcnt⟩
        have : 1 < (exchanges.flatMap Exchange.symbols).count s := by
          simpa using hcnt
        rw [count_symbols_eq_countP exchanges s hnd] at this
        exact this
      · intro hcnt
        have hcnt' : 1 < exchanges.countP (fun e => decide (s ∈ e.symbols)) :=
          hcnt
        have hpos : 0 < exchanges.countP (fun e => decide (s ∈ e.symbols)) :=
          Nat.lt_of_lt_of_le Nat.zero_lt_one (Nat.le_of_lt hcnt')
        obtain ⟨e, he, hse⟩ := List.countP_pos_iff.mp hpos
        refine ⟨List.mem_flatMap.mpr ⟨e, he, by simpa using hse⟩, ?_⟩
        rw [decide_eq_true_eq, count_symbols_eq_countP exchanges s hnd]
        exact hcnt'
  · decide

/-- Witness for get_arbitrage_symbols_spec at the spec's mock exchanges A
and B. -/
theorem get_arbitrage_symbols_spec_witness :
    2 ≤ ([exchA, exchB] : List Exchange).length ∧
      (∀ e ∈ ([exchA, exchB] : List Exchange), e.symbols.Nodup) ∧
      (("BTC/USDT" ∈ get_arbitrage_symbols [exchA, exchB]) ↔
        2 ≤ ([exchA, exchB] : List Exchange).countP
          (fun e => decide ("BTC/USDT" ∈ e.symbols))) :=
  ⟨by decide, by decide,
    (get_arbitrage_symbols_spec.1 [exchA, exchB] (by decide) (by decide)).2.2
      "BTC/USDT"⟩
